import Mathlib

/-!
Shallow embedding of the Tetris engine from
`src/brick_game/tetris/tetris.c` (FIELD_HEIGHT = 20, FIELD_WIDTH = 10,
BLOCK = 4).  Pure data is translated directly; the wall clock used by
`getTime` is passed in as the tick's `now` argument, and the process RNG
`rand()` is passed in as a natural-number argument (the code uses
`rand() % 7`).  The high-score file `highscore.txt` is modelled by the
`stored` component of the global state.
-/

namespace Tetris

/-- The playing field: a list of 20 rows, each a list of 10 cell values
(0 = empty, otherwise the fixed piece's `type + 1`). -/
abbrev Field := List (List Int)

/-- A 4x4 piece template, exactly like the C array `int shape[BLOCK][BLOCK]`. -/
abbrev Shape := Fin 4 → Fin 4 → Int

instance : DecidableEq Shape := fun s t =>
  decidable_of_iff (∀ i j, s i j = t i j) (by
    constructor
    · intro h; funext i j; exact h i j
    · intro h i j; rw [h])

/-- `UserAction_t` from tetris.h. -/
inductive UserAction where
  | Start | Pause | Terminate | Left | Right | Up | Down | Action
deriving DecidableEq

/-- `Status_game` from tetris.h. -/
inductive StatusGame where
  | Start_t | Spawn | Moving | Shifting | Pause_t | Attaching | Terminate_t | GameOver
deriving DecidableEq

/-- `GameInfo_t` from tetris.h (the `next` preview is a 4x4 grid). -/
structure GameInfo where
  field : Field
  next : Shape
  score : ℕ
  high_score : ℕ
  level : ℕ
  speed : ℕ
  pause : ℕ
deriving DecidableEq

/-- `Piece` from tetris.h. -/
structure Piece where
  shape : Shape
  posX : Int
  posY : Int
  type : ℕ
  rotation : ℕ
deriving DecidableEq

/-- `Params_t` from tetris.h (drop timing kept as the last reset instant in ms). -/
structure Params where
  game_info : GameInfo
  dropTime : Int
  start : Bool
  currentPiece : Piece
  nextPiece : Piece
  fieldForFront : Field
deriving DecidableEq

/-- The process-wide state: the state-machine value (`initGameState`),
the parameters (`initGameParam`) and the content of `highscore.txt`. -/
structure GState where
  state : StatusGame
  param : Params
  stored : ℕ
deriving DecidableEq

/-- Reading `field[y][x]`; indices in the C code are ints.  Out-of-range
reads (which the C code's guards make unreachable on real fields) give 0. -/
def getCell (f : Field) (y x : Int) : Int :=
  if 0 ≤ y ∧ 0 ≤ x then (f.getD y.toNat []).getD x.toNat 0 else 0

/-- Writing `field[y][x] = v` (the callers bound-check first). -/
def setCell (f : Field) (y x : ℕ) (v : Int) : Field :=
  f.set y ((f.getD y []).set x v)

/-- `initMatrix` : a rows×cols zero grid (calloc zero-fills). -/
def initMatrix (rows cols : ℕ) : Field :=
  List.replicate rows (List.replicate cols 0)

/-- Turn a 4x4 list-of-lists literal into a `Shape`. -/
def mkShape (rows : List (List Int)) : Shape :=
  fun i j => (rows.getD i.val []).getD j.val 0

/-- The seven shape templates, `pieces[7][BLOCK][BLOCK]` in `spawnNewPiece`. -/
def piecesList : List (List (List Int)) :=
  [ [[0,0,0,0],[1,1,1,1],[0,0,0,0],[0,0,0,0]],
    [[1,1,0,0],[1,1,0,0],[0,0,0,0],[0,0,0,0]],
    [[0,1,0,0],[1,1,1,0],[0,0,0,0],[0,0,0,0]],
    [[1,0,0,0],[1,1,1,0],[0,0,0,0],[0,0,0,0]],
    [[0,0,1,0],[1,1,1,0],[0,0,0,0],[0,0,0,0]],
    [[0,1,1,0],[1,1,0,0],[0,0,0,0],[0,0,0,0]],
    [[1,1,0,0],[0,1,1,0],[0,0,0,0],[0,0,0,0]] ]

/-- `pieces[idx]` as a `Shape`. -/
def pieceTemplate (idx : ℕ) : Shape := mkShape (piecesList.getD idx [])

/-- `canPlacePiece`: every occupied cell of the current piece must lie in
`[0,10)×[0,20)` and sit on an empty field cell (the C loop clears
`return_value` on `x < 0 || x >= W || y < 0 || y >= H || field[y][x]`). -/
def canPlacePiece (p : Params) : Bool :=
  decide (∀ i j : Fin 4, p.currentPiece.shape i j ≠ 0 →
    0 ≤ p.currentPiece.posX + (j.val : Int) ∧ p.currentPiece.posX + (j.val : Int) < 10 ∧
    0 ≤ p.currentPiece.posY + (i.val : Int) ∧ p.currentPiece.posY + (i.val : Int) < 20 ∧
    getCell p.game_info.field (p.currentPiece.posY + (i.val : Int)) (p.currentPiece.posX + (j.val : Int)) = 0)

/-- The preview grid written by `spawnNewPiece`:
`next[i][j] = shape[i][j] ? type + 1 : 0`. -/
def previewOf (pc : Piece) : Shape :=
  fun i j => if pc.shape i j ≠ 0 then (pc.type : Int) + 1 else 0

/-- `spawnNewPiece(param, isInit)`; `ridx` stands for the `rand()` draw. -/
def spawnNewPiece (p : Params) (ridx : ℕ) (isInit : Bool) : Params × Bool :=
  if isInit then
    let idx := ridx % 7
    let np : Piece :=
      { shape := pieceTemplate idx, posX := (10 / 2 : Int) - (4 / 2), posY := 0,
        type := idx, rotation := 0 }
    ({ p with nextPiece := np, game_info := { p.game_info with next := previewOf np } }, true)
  else
    let cur : Piece :=
      { shape := p.nextPiece.shape, posX := (10 / 2 : Int) - (4 / 2), posY := 0,
        type := p.nextPiece.type, rotation := 0 }
    let p1 := { p with currentPiece := cur }
    if canPlacePiece p1 then
      let idx := ridx % 7
      let np : Piece :=
        { shape := pieceTemplate idx, posX := (10 / 2 : Int) - (4 / 2), posY := 0,
          type := idx, rotation := 0 }
      ({ p1 with nextPiece := np, game_info := { p1.game_info with next := previewOf np } }, true)
    else
      (p1, false)

/-- `fixFigure`: stamp the current piece's occupied, in-bounds cells into the
field with value `type + 1`. -/
def fixFigure (p : Params) : Params :=
  let cur := p.currentPiece
  let f :=
    (List.finRange 4).foldl (fun f i =>
      (List.finRange 4).foldl (fun f j =>
        if cur.shape i j ≠ 0 ∧
            0 ≤ cur.posX + (j.val : Int) ∧ cur.posX + (j.val : Int) < 10 ∧
            0 ≤ cur.posY + (i.val : Int) ∧ cur.posY + (i.val : Int) < 20 then
          setCell f (cur.posY + (i.val : Int)).toNat (cur.posX + (j.val : Int)).toNat
            ((cur.type : Int) + 1)
        else f) f) p.game_info.field
  { p with game_info := { p.game_info with field := f } }

/-- `overlayCurrentPiece`: same stamping, into `fieldForFront`. -/
def overlayCurrentPiece (p : Params) : Params :=
  let cur := p.currentPiece
  let f :=
    (List.finRange 4).foldl (fun f i =>
      (List.finRange 4).foldl (fun f j =>
        if cur.shape i j ≠ 0 ∧
            0 ≤ cur.posX + (j.val : Int) ∧ cur.posX + (j.val : Int) < 10 ∧
            0 ≤ cur.posY + (i.val : Int) ∧ cur.posY + (i.val : Int) < 20 then
          setCell f (cur.posY + (i.val : Int)).toNat (cur.posX + (j.val : Int)).toNat
            ((cur.type : Int) + 1)
        else f) f) p.fieldForFront
  { p with fieldForFront := f }

/-- A row is full iff all 10 cells are occupied (`full_check == FIELD_WIDTH`). -/
def rowFull (row : List Int) : Bool :=
  decide (row.countP (fun c => decide (c ≠ 0)) = 10)

/-- `cleanStr`: zero out row `y`. -/
def cleanStr (f : Field) (y : ℕ) : Field :=
  f.set y (List.replicate 10 0)

/-- The loop of `copyStr`: `for (row = y; row > 0; row--) f[row] = f[row-1]`. -/
def shiftRowsDown (f : Field) : ℕ → Field
  | 0 => f
  | r + 1 => shiftRowsDown (f.set (r + 1) (f.getD r [])) r

/-- `copyStr`: shift rows `0..y-1` down into `1..y`, then clear row 0. -/
def copyStr (f : Field) (y : ℕ) : Field :=
  (shiftRowsDown f y).set 0 (List.replicate 10 0)

/-- The row scan of `updateCurrentGameInfo`: from `y = 19` downward; a full
row is cleared and shifted and the same index is examined again (`y++` in
the C `for` loop).  The loop terminates after at most `y + 1` plus the
number of full rows iterations; `fuel` majorises that. -/
def lineScan : ℕ → Field → ℕ → Field × ℕ
  | 0, f, _ => (f, 0)
  | fuel + 1, f, y =>
    if rowFull (f.getD y []) then
      let f2 := copyStr (cleanStr f y) y
      let r := lineScan fuel f2 y
      (r.1, r.2 + 1)
    else if y = 0 then (f, 0)
    else lineScan fuel f (y - 1)

/-- The `switch (line_full)` bonus table of `updateInfo` (`case 4` and the
`default` both give 1500). -/
def scoreBonus (lineFull : ℕ) : ℕ :=
  if lineFull = 1 then 100
  else if lineFull = 2 then 300
  else if lineFull = 3 then 700
  else 1500

/-- `updateInfo`: add the per-tick line bonus, recompute the level, and
recompute the speed only when the level changed. -/
def updateInfo (gi : GameInfo) (lineFull : ℕ) : GameInfo :=
  let score1 := gi.score + scoreBonus lineFull
  let newLevel0 := score1 / 600 + 1
  let newLevel := if newLevel0 > 10 then 10 else newLevel0
  if newLevel ≠ gi.level then
    let speed1 := 1000 - (newLevel - 1) * 100
    let speed2 := if speed1 < 100 then 100 else speed1
    { gi with score := score1, level := newLevel, speed := speed2 }
  else
    { gi with score := score1 }

/-- `updateCurrentGameInfo`: run the clearing scan, then the scoring update
when at least one line was cleared. -/
def updateCurrentGameInfo (p : Params) : Params :=
  let r := lineScan 40 p.game_info.field 19
  let gi1 := { p.game_info with field := r.1 }
  let gi2 := if r.2 ≠ 0 then updateInfo gi1 r.2 else gi1
  { p with game_info := gi2 }

/-- `moveFigureDown`: per occupied cell the C code fails on
`y >= FIELD_HEIGHT || field[y][x]` at the candidate row. -/
def moveFigureDown (p : Params) : Params × Bool :=
  let cur := p.currentPiece
  let newPosY := cur.posY + 1
  let ok := decide (∀ i j : Fin 4, cur.shape i j ≠ 0 →
    newPosY + (i.val : Int) < 20 ∧
    getCell p.game_info.field (newPosY + (i.val : Int)) (cur.posX + (j.val : Int)) = 0)
  if ok then ({ p with currentPiece := { cur with posY := newPosY } }, true)
  else (p, false)

/-- `moveFigureLeft`: fails on `x < 0 || field[y][x]` at the candidate column. -/
def moveFigureLeft (p : Params) : Params × Bool :=
  let cur := p.currentPiece
  let newPosX := cur.posX - 1
  let ok := decide (∀ i j : Fin 4, cur.shape i j ≠ 0 →
    0 ≤ newPosX + (j.val : Int) ∧
    getCell p.game_info.field (cur.posY + (i.val : Int)) (newPosX + (j.val : Int)) = 0)
  if ok then ({ p with currentPiece := { cur with posX := newPosX } }, true)
  else (p, false)

/-- `moveFigureRight`: fails on `x >= FIELD_WIDTH || field[y][x]`. -/
def moveFigureRight (p : Params) : Params × Bool :=
  let cur := p.currentPiece
  let newPosX := cur.posX + 1
  let ok := decide (∀ i j : Fin 4, cur.shape i j ≠ 0 →
    newPosX + (j.val : Int) < 10 ∧
    getCell p.game_info.field (cur.posY + (i.val : Int)) (newPosX + (j.val : Int)) = 0)
  if ok then ({ p with currentPiece := { cur with posX := newPosX } }, true)
  else (p, false)

/-- `rotateShape`: `temp[j][BLOCK-1-i] = shape[i][j]`, i.e. the rotated
template reads `new[a][b] = old[3-b][a]`. -/
def rotateShape (s : Shape) : Shape :=
  fun a b => s (3 - b) a

/-- `canRotate`: project the clockwise-rotated template at the unchanged
position and run the same bounds/occupancy test as `canPlacePiece`. -/
def canRotate (p : Params) : Bool :=
  let cur := p.currentPiece
  let tmp := rotateShape cur.shape
  decide (∀ i j : Fin 4, tmp i j ≠ 0 →
    0 ≤ cur.posX + (j.val : Int) ∧ cur.posX + (j.val : Int) < 10 ∧
    0 ≤ cur.posY + (i.val : Int) ∧ cur.posY + (i.val : Int) < 20 ∧
    getCell p.game_info.field (cur.posY + (i.val : Int)) (cur.posX + (j.val : Int)) = 0)

/-- `findMinXY`: the least occupied column and row of a template (4 when
the template is empty). -/
def findMinXY (s : Shape) : Int × Int :=
  (List.finRange 4).foldl (fun acc i =>
    (List.finRange 4).foldl (fun acc2 j =>
      if s i j ≠ 0 then
        ((if (j.val : Int) < acc2.1 then (j.val : Int) else acc2.1),
         (if (i.val : Int) < acc2.2 then (i.val : Int) else acc2.2))
      else acc2) acc) (4, 4)

/-- `adjustPositionForLine`: the hand-tuned nudge for the I piece (type 0),
alternating with the parity of the rotation counter. -/
def adjustPositionForLine (p : Params) : Params :=
  if p.currentPiece.type = 0 then
    if p.currentPiece.rotation % 2 = 0 then
      { p with currentPiece :=
        { p.currentPiece with posX := p.currentPiece.posX + 1, posY := p.currentPiece.posY - 1 } }
    else
      { p with currentPiece :=
        { p.currentPiece with posX := p.currentPiece.posX - 1, posY := p.currentPiece.posY + 1 } }
  else p

/-- `rotatePiece`: pre-check, O-piece early success, rotate, re-anchor by the
occupied bounding box, apply the I nudge, validate, commit or roll back. -/
def rotatePiece (p : Params) : Params × Bool :=
  if canRotate p = false then (p, false)
  else if p.currentPiece.type = 1 then (p, true)
  else
    let oldShape := p.currentPiece.shape
    let oldPosX := p.currentPiece.posX
    let oldPosY := p.currentPiece.posY
    let newShape := rotateShape oldShape
    let oldMin := findMinXY oldShape
    let newMin := findMinXY newShape
    let p1 := { p with currentPiece :=
      { p.currentPiece with
        shape := newShape,
        posX := oldPosX + (oldMin.1 - newMin.1), posY := oldPosY + (oldMin.2 - newMin.2) } }
    let p2 := adjustPositionForLine p1
    if canPlacePiece p2 then
      ({ p2 with currentPiece :=
        { p2.currentPiece with rotation := (p2.currentPiece.rotation + 1) % 4 } }, true)
    else (p, false)

/-- `addHighScore`: write `score` to the file iff it beats the stored value;
returns the new stored value. -/
def addHighScore (stored score : ℕ) : ℕ :=
  if score ≤ stored then stored else score

/-- The `while (moveFigureDown(param))` hard-drop loop of `userInput`;
`fuel` majorises the number of iterations (a piece with an occupied cell
is blocked once `posY` reaches 19). -/
def dropLoop : ℕ → Params → Params
  | 0, p => p
  | fuel + 1, p =>
    let r := moveFigureDown p
    if r.2 then dropLoop fuel r.1 else p

/-- `userInput(action, hold)`. -/
def userInput (a : UserAction) (hold : Bool) (g : GState) : GState :=
  if hold = false then
    match a with
    | .Start =>
        if g.state = .Start_t ∨ g.state = .GameOver then
          { g with state := .Spawn, param := { g.param with start := true } }
        else g
    | .Pause =>
        if g.state = .Pause_t then
          { g with
            state := .Moving,
            param := { g.param with game_info := { g.param.game_info with pause := 0 } } }
        else if g.state = .Moving then
          { g with
            state := .Pause_t,
            param := { g.param with game_info := { g.param.game_info with pause := 1 } } }
        else g
    | .Terminate =>
        let stored1 :=
          if g.param.game_info.score > g.param.game_info.high_score then
            addHighScore g.stored g.param.game_info.score
          else g.stored
        let gi1 :=
          if g.param.game_info.pause = 1 then { g.param.game_info with pause := 2 }
          else g.param.game_info
        { state := .GameOver, param := { g.param with game_info := gi1 }, stored := stored1 }
    | .Left =>
        if g.state = .Moving ∧ g.param.game_info.pause = 0 then
          { g with param := (moveFigureLeft g.param).1 }
        else g
    | .Right =>
        if g.state = .Moving ∧ g.param.game_info.pause = 0 then
          { g with param := (moveFigureRight g.param).1 }
        else g
    | .Up => g
    | .Down => g
    | .Action =>
        if g.state = .Moving ∧ g.param.game_info.pause = 0 then
          { g with param := (rotatePiece g.param).1 }
        else g
  else
    if g.state = .Moving ∧ g.param.game_info.pause = 0 then
      { g with param := dropLoop 25 g.param }
    else g

/-- `createGameInfo`: when the tick ran, copy the field into the render
buffer, overlay the piece and package the view; on a frozen tick return the
internal `GameInfo` record as is. -/
def createGameInfo (p : Params) (check : Bool) : Params × GameInfo :=
  if check = false then (p, p.game_info)
  else
    let p1 := overlayCurrentPiece { p with fieldForFront := p.game_info.field }
    (p1,
      { field := p1.fieldForFront, next := p.game_info.next, score := p.game_info.score,
        high_score := p.game_info.high_score, level := p.game_info.level,
        speed := p.game_info.speed, pause := p.game_info.pause })

/-- `updateCurrentState`: one external tick.  `now` stands for the monotonic
clock reading in ms, `ridx` for the `rand()` draw a spawn may consume. -/
def updateCurrentState (g : GState) (now : Int) (ridx : ℕ) : GState × GameInfo :=
  if g.param.game_info.pause = 1 ∨ g.param.start = false then
    let r := createGameInfo g.param false
    ({ g with param := r.1 }, r.2)
  else
    let g1 :=
      match g.state with
      | .Start_t => if g.param.start then { g with state := .Spawn } else g
      | .Spawn =>
          let r := spawnNewPiece g.param ridx false
          { g with param := r.1, state := if r.2 then .Moving else .GameOver }
      | .Moving =>
          if (g.param.game_info.speed : Int) ≤ now - g.param.dropTime then
            { g with state := .Shifting, param := { g.param with dropTime := now } }
          else g
      | .Shifting =>
          let r := moveFigureDown g.param
          { g with param := r.1, state := if r.2 then .Moving else .Attaching }
      | .Pause_t => g
      | .Attaching =>
          { g with param := updateCurrentGameInfo (fixFigure g.param), state := .Spawn }
      | .Terminate_t =>
          { g with
            param := { g.param with game_info := { g.param.game_info with pause := 2 } },
            stored := addHighScore g.stored g.param.game_info.score }
      | .GameOver =>
          { g with
            param := { g.param with game_info := { g.param.game_info with pause := 2 } },
            stored := addHighScore g.stored g.param.game_info.score }
    let r := createGameInfo g1.param true
    ({ g1 with param := r.1 }, r.2)

/-- The all-zero piece a process-static `Piece` starts as. -/
def zeroPiece : Piece :=
  { shape := fun _ _ => 0, posX := 0, posY := 0, type := 0, rotation := 0 }

/-- `initGame`: fresh field and preview, score 0, high score from the file,
level 1, speed 1000, not paused, then the initial spawn; the state machine
starts at `Start_t` and `param->start` is still false (static zero). -/
def initGame (stored ridx : ℕ) : GState :=
  let gi : GameInfo :=
    { field := initMatrix 20 10, next := fun _ _ => 0, score := 0, high_score := stored,
      level := 1, speed := 1000, pause := 0 }
  let p : Params :=
    { game_info := gi, dropTime := 0, start := false,
      currentPiece := zeroPiece, nextPiece := zeroPiece, fieldForFront := initMatrix 20 10 }
  { state := .Start_t, param := (spawnNewPiece p ridx true).1, stored := stored }

/-- Number of full rows among row indices `0..y` of a field. -/
def countFullUpTo (f : Field) : ℕ → ℕ
  | 0 => if rowFull (f.getD 0 []) then 1 else 0
  | y + 1 => countFullUpTo f y + (if rowFull (f.getD (y + 1) []) then 1 else 0)

/-- The score increment the spec's table assigns to `k` cleared rows
(0 for none, then 100/300/700/1500). -/
def scoreDelta (k : ℕ) : ℕ := [0, 100, 300, 700, 1500].getD k 0

/-- States reachable from `initGame` through `userInput` and
`updateCurrentState` calls, over all clock readings and RNG draws. -/
inductive Reachable : GState → Prop where
  | init (stored ridx : ℕ) : Reachable (initGame stored ridx)
  | input (a : UserAction) (hold : Bool) {g : GState} :
      Reachable g → Reachable (userInput a hold g)
  | tick (now : Int) (ridx : ℕ) {g : GState} :
      Reachable g → Reachable (updateCurrentState g now ridx).1

/-! ### Shared concrete states for witnesses and counterexamples -/

/-- An empty 20×10 field with fresh counters. -/
def emptyGameInfo : GameInfo :=
  { field := initMatrix 20 10, next := fun _ _ => 0, score := 0, high_score := 0,
    level := 1, speed := 1000, pause := 0 }

/-- A started session over an empty field. -/
def baseParams : Params :=
  { game_info := emptyGameInfo, dropTime := 0, start := true,
    currentPiece := zeroPiece, nextPiece := zeroPiece, fieldForFront := initMatrix 20 10 }

/-- The O piece (type 1) flush against the right wall of an empty field. -/
def oAtWall : Params :=
  { baseParams with currentPiece :=
    { shape := pieceTemplate 1, posX := 8, posY := 0, type := 1, rotation := 0 } }

/-- The O piece (type 1) in the middle of an empty field. -/
def oAtCenter : Params :=
  { baseParams with currentPiece :=
    { shape := pieceTemplate 1, posX := 4, posY := 5, type := 1, rotation := 0 } }

/-- The T piece in the middle of an empty field. -/
def tAtCenter : Params :=
  { baseParams with currentPiece :=
    { shape := pieceTemplate 2, posX := 3, posY := 5, type := 2, rotation := 0 } }

/-! ### C3 — level and speed recomputation -/

/-- A 20×10 field whose rows 0 and 1 are fully occupied. -/
def toppedOutField : Field :=
  List.replicate 10 1 :: List.replicate 10 1 :: initMatrix 18 10

/-- A topped-out session: rows 0 and 1 fully occupied, the O piece queued. -/
def blockedTopParams : Params :=
  { baseParams with
    game_info := { emptyGameInfo with field := toppedOutField },
    nextPiece := { shape := pieceTemplate 1, posX := 3, posY := 0, type := 1, rotation := 0 } }

/-- A running (unpaused) state with a score above the stored high score. -/
def runningScored : GState :=
  { state := .Moving,
    param := { baseParams with game_info :=
      { emptyGameInfo with score := 50, high_score := 10 } },
    stored := 10 }

/-- Witness for C8 (amended) at a paused, high-scoring state. -/
def pausedScored : GState :=
  { runningScored with param := { runningScored.param with game_info :=
      { emptyGameInfo with score := 50, high_score := 10, pause := 1 } } }

/-- The fresh game, started. -/
def startedGame : GState := userInput .Start false (initGame 0 0)

/-- The state after the spawn tick (that tick's snapshot overlays the
just-spawned I piece). -/
def afterSpawnTick : GState := (updateCurrentState startedGame 0 1).1

/-- The same session, paused right after the spawn tick. -/
def pausedAfterSpawn : GState := userInput .Pause false afterSpawnTick

/-- Replace only the current piece's vertical position. -/
def setPosY (p : Params) (y : Int) : Params :=
  { p with currentPiece := { p.currentPiece with posY := y } }

/-- A `Moving` unpaused session holding the T piece. -/
def movingT : GState := { state := .Moving, param := tAtCenter, stored := 0 }

/-- The horizontal component of the I-piece nudge of `adjustPositionForLine`. -/
def nudgeX (t r : ℕ) : Int :=
  if t = 0 then (if r % 2 = 0 then 1 else -1) else 0

/-- The vertical component of the I-piece nudge of `adjustPositionForLine`. -/
def nudgeY (t r : ℕ) : Int :=
  if t = 0 then (if r % 2 = 0 then -1 else 1) else 0

/-- A concrete session: init (next = O piece), start. -/
def cexTrace1 : GState := userInput .Start false (initGame 0 1)

/-- The spawn tick: the O piece enters play at (3,0). -/
def cexTrace2 : GState := (updateCurrentState cexTrace1 0 2).1

/-- Hard drop: the O piece rests at posY = 18. -/
def cexTrace3 : GState := userInput .Down true cexTrace2

/-- The gravity tick fires (2000 ms elapsed at speed 1000). -/
def cexTrace4 : GState := (updateCurrentState cexTrace3 2000 0).1

/-- The shifting tick: the descent is blocked, so the machine attaches. -/
def cexTrace5 : GState := (updateCurrentState cexTrace4 2100 0).1

/-- The attaching tick: `fixFigure` stamps the O piece into the field. -/
def cexTrace6 : GState := (updateCurrentState cexTrace5 2200 0).1

/-- A session whose field has exactly its two bottom rows full. -/
def twoFullRowsParams : Params :=
  { baseParams with game_info := { emptyGameInfo with
      field := initMatrix 18 10 ++ [List.replicate 10 1, List.replicate 10 1] } }

/-- The score after `updateInfo` is the old score plus the line bonus. -/
theorem updateInfo_score (gi : GameInfo) (k : ℕ) :
    (updateInfo gi k).score = gi.score + scoreBonus k := by
  simp only [updateInfo]
  split <;> split <;> rfl

/-- The level after `updateInfo` is `min (newScore / 600 + 1) 10`. -/
theorem updateInfo_level (gi : GameInfo) (k : ℕ) :
    (updateInfo gi k).level = min ((gi.score + scoreBonus k) / 600 + 1) 10 := by
  simp only [updateInfo]
  split <;> rename_i h10 <;> split <;> rename_i hL <;>
    simp only [ne_eq, not_not] at hL <;> simp only [] <;> omega

/-- When the level did not change, `updateInfo` leaves the speed alone. -/
theorem updateInfo_speed_same (gi : GameInfo) (k : ℕ)
    (h : (updateInfo gi k).level = gi.level) :
    (updateInfo gi k).speed = gi.speed := by
  rw [updateInfo_level] at h
  simp only [updateInfo]
  split <;> rename_i h10 <;> split <;> rename_i hL <;>
    simp only [ne_eq, not_not] at hL <;> simp only [] <;> omega

/-- When the level changed, `updateInfo` recomputes the speed from the new
level, clamped below at 100. -/
theorem updateInfo_speed_new (gi : GameInfo) (k : ℕ)
    (h : (updateInfo gi k).level ≠ gi.level) :
    (updateInfo gi k).speed = max 100 (1000 - ((updateInfo gi k).level - 1) * 100) := by
  rw [updateInfo_level] at h
  rw [updateInfo_level]
  simp only [updateInfo]
  split <;> rename_i h10 <;> split <;> rename_i hL <;>
    simp only [ne_eq, not_not] at hL <;> simp only [] <;>
    (try split) <;> omega

/-- Claim C3 (confirmed): after every scoring update (`updateInfo`, for any
cleared-line count), the level equals `min (score / 600 + 1) 10`; the speed
is recomputed only on an update where the level changes, and then to
`max 100 (1000 - (level - 1) * 100)`; and the speed never drops below 100. -/
theorem claim_C3_level_speed (gi : GameInfo) (k : ℕ) (hsp : 100 ≤ gi.speed) :
    (updateInfo gi k).level = min ((updateInfo gi k).score / 600 + 1) 10
  ∧ ((updateInfo gi k).level = gi.level → (updateInfo gi k).speed = gi.speed)
  ∧ ((updateInfo gi k).level ≠ gi.level →
      (updateInfo gi k).speed = max 100 (1000 - ((updateInfo gi k).level - 1) * 100))
  ∧ 100 ≤ (updateInfo gi k).speed := by
  refine ⟨by rw [updateInfo_level, updateInfo_score], updateInfo_speed_same gi k,
    updateInfo_speed_new gi k, ?_⟩
  by_cases h : (updateInfo gi k).level = gi.level
  · rw [updateInfo_speed_same gi k h]; exact hsp
  · rw [updateInfo_speed_new gi k h]; omega

/-- Witness for C3 at a concrete input: score 500 + 100 crosses the 600
threshold, so the level becomes 2 and the speed is recomputed to 900. -/
theorem claim_C3_witness :
    100 ≤ ({ emptyGameInfo with score := 500 } : GameInfo).speed
  ∧ ((updateInfo { emptyGameInfo with score := 500 } 1).level =
      min ((updateInfo { emptyGameInfo with score := 500 } 1).score / 600 + 1) 10
    ∧ ((updateInfo { emptyGameInfo with score := 500 } 1).level =
        ({ emptyGameInfo with score := 500 } : GameInfo).level →
        (updateInfo { emptyGameInfo with score := 500 } 1).speed =
        ({ emptyGameInfo with score := 500 } : GameInfo).speed)
    ∧ ((updateInfo { emptyGameInfo with score := 500 } 1).level ≠
        ({ emptyGameInfo with score := 500 } : GameInfo).level →
        (updateInfo { emptyGameInfo with score := 500 } 1).speed =
        max 100 (1000 - ((updateInfo { emptyGameInfo with score := 500 } 1).level - 1) * 100))
    ∧ 100 ≤ (updateInfo { emptyGameInfo with score := 500 } 1).speed) :=
  ⟨by decide, claim_C3_level_speed { emptyGameInfo with score := 500 } 1 (by decide)⟩

/-! ### C4 — normal-mode spawn -/

/-- Claim C4 (confirmed): normal-mode `spawnNewPiece` sets the current piece
to the next piece's shape and type with rotation 0 at `posX = 3`, `posY = 0`;
it succeeds iff that piece can be placed; and on failure the next piece and
the preview grid are unchanged. -/
theorem claim_C4_spawn (p : Params) (ridx : ℕ) :
    (spawnNewPiece p ridx false).1.currentPiece =
      { shape := p.nextPiece.shape, posX := 3, posY := 0,
        type := p.nextPiece.type, rotation := 0 }
  ∧ ((spawnNewPiece p ridx false).2 = true ↔
      canPlacePiece { p with currentPiece :=
        { shape := p.nextPiece.shape, posX := 3, posY := 0,
          type := p.nextPiece.type, rotation := 0 } } = true)
  ∧ ((spawnNewPiece p ridx false).2 = false →
      (spawnNewPiece p ridx false).1.nextPiece = p.nextPiece ∧
      (spawnNewPiece p ridx false).1.game_info.next = p.game_info.next) := by
  have h3 : (10 / 2 : Int) - (4 / 2) = 3 := by decide
  simp only [spawnNewPiece, Bool.false_eq_true, if_false, h3]
  split
  · exact ⟨rfl, by simp [*], by simp⟩
  · refine ⟨rfl, ?_, fun _ => ⟨rfl, rfl⟩⟩
    simp_all

/-- Witness for C4: on a field whose rows 0 and 1 are fully occupied the
spawn fails and the next piece and preview survive unchanged. -/
theorem claim_C4_witness :
    (spawnNewPiece blockedTopParams 5 false).2 = false
  ∧ (spawnNewPiece blockedTopParams 5 false).1.nextPiece = blockedTopParams.nextPiece
  ∧ (spawnNewPiece blockedTopParams 5 false).1.game_info.next =
      blockedTopParams.game_info.next :=
  ⟨by decide, (claim_C4_spawn blockedTopParams 5).2.2 (by decide)⟩

/-! ### C5 — translation moves -/

/-- Claim C5 (confirmed): each translation commits its candidate position and
succeeds iff every occupied cell at the candidate passes the direction's
inline bound (`x ≥ 0` left, `x < 10` right, `y < 20` down) and lands on an
empty field cell; a failed move leaves the whole state unchanged. -/
theorem claim_C5_moves (p : Params) :
    ((moveFigureLeft p).2 = true ↔ (∀ i j : Fin 4, p.currentPiece.shape i j ≠ 0 →
        0 ≤ p.currentPiece.posX - 1 + (j.val : Int) ∧
        getCell p.game_info.field (p.currentPiece.posY + (i.val : Int))
          (p.currentPiece.posX - 1 + (j.val : Int)) = 0))
  ∧ ((moveFigureLeft p).2 = true → (moveFigureLeft p).1 =
      { p with currentPiece := { p.currentPiece with posX := p.currentPiece.posX - 1 } })
  ∧ ((moveFigureLeft p).2 = false → (moveFigureLeft p).1 = p)
  ∧ ((moveFigureRight p).2 = true ↔ (∀ i j : Fin 4, p.currentPiece.shape i j ≠ 0 →
        p.currentPiece.posX + 1 + (j.val : Int) < 10 ∧
        getCell p.game_info.field (p.currentPiece.posY + (i.val : Int))
          (p.currentPiece.posX + 1 + (j.val : Int)) = 0))
  ∧ ((moveFigureRight p).2 = true → (moveFigureRight p).1 =
      { p with currentPiece := { p.currentPiece with posX := p.currentPiece.posX + 1 } })
  ∧ ((moveFigureRight p).2 = false → (moveFigureRight p).1 = p)
  ∧ ((moveFigureDown p).2 = true ↔ (∀ i j : Fin 4, p.currentPiece.shape i j ≠ 0 →
        p.currentPiece.posY + 1 + (i.val : Int) < 20 ∧
        getCell p.game_info.field (p.currentPiece.posY + 1 + (i.val : Int))
          (p.currentPiece.posX + (j.val : Int)) = 0))
  ∧ ((moveFigureDown p).2 = true → (moveFigureDown p).1 =
      { p with currentPiece := { p.currentPiece with posY := p.currentPiece.posY + 1 } })
  ∧ ((moveFigureDown p).2 = false → (moveFigureDown p).1 = p) := by
  refine ⟨?_, ?_, ?_, ?_, ?_, ?_, ?_, ?_, ?_⟩
  · simp only [moveFigureLeft]
    split <;> rename_i h <;> simp only [decide_eq_true_eq] at h <;> simpa using h
  · simp only [moveFigureLeft]
    split
    · exact fun _ => rfl
    · intro hco; simp at hco
  · simp only [moveFigureLeft]
    split
    · intro hco; simp at hco
    · exact fun _ => rfl
  · simp only [moveFigureRight]
    split <;> rename_i h <;> simp only [decide_eq_true_eq] at h <;> simpa using h
  · simp only [moveFigureRight]
    split
    · exact fun _ => rfl
    · intro hco; simp at hco
  · simp only [moveFigureRight]
    split
    · intro hco; simp at hco
    · exact fun _ => rfl
  · simp only [moveFigureDown]
    split <;> rename_i h <;> simp only [decide_eq_true_eq] at h <;> simpa using h
  · simp only [moveFigureDown]
    split
    · exact fun _ => rfl
    · intro hco; simp at hco
  · simp only [moveFigureDown]
    split
    · intro hco; simp at hco
    · exact fun _ => rfl

/-- Witness for C5: the O piece at the right wall cannot move right, and the
state survives unchanged; it can move left. -/
theorem claim_C5_witness :
    ((moveFigureRight oAtWall).2 = false ∧ (moveFigureLeft oAtWall).2 = true)
  ∧ (moveFigureRight oAtWall).1 = oAtWall
  ∧ (moveFigureLeft oAtWall).1 =
      { oAtWall with currentPiece :=
        { oAtWall.currentPiece with posX := oAtWall.currentPiece.posX - 1 } } :=
  ⟨⟨by decide, by decide⟩, (claim_C5_moves oAtWall).2.2.2.2.2.1 (by decide),
    (claim_C5_moves oAtWall).2.1 (by decide)⟩

/-! ### C6 — rotating the O piece -/

/-- Counterexample to C6 as stated: with the O piece flush against the right
wall of an empty field, the rotation request FAILS (`canRotate` projects the
transposed 2×2 block into columns `posX+2`, `posX+3`, which are out of
bounds), so a rotation request on the O piece is not always a success. -/
theorem claim_C6_cex :
    oAtWall.currentPiece.type = 1 ∧ (rotatePiece oAtWall).2 = false := by
  constructor
  · rfl
  · decide

/-- Claim C6 (corrected): for the O piece (type 1) a rotation request
succeeds iff the `canRotate` pre-check passes, and — success or failure —
the piece's shape, position and rotation counter are unchanged (the whole
state is unchanged). -/
theorem claim_C6_amended (p : Params) (h : p.currentPiece.type = 1) :
    (rotatePiece p).1 = p ∧ ((rotatePiece p).2 = true ↔ canRotate p = true) := by
  cases hcr : canRotate p <;> simp [rotatePiece, hcr, h]

/-- Witness for C6 (amended): the O piece in the middle of an empty field
passes `canRotate`, and the rotation request succeeds, changing nothing. -/
theorem claim_C6_witness :
    oAtCenter.currentPiece.type = 1
  ∧ (rotatePiece oAtCenter).1 = oAtCenter
  ∧ ((rotatePiece oAtCenter).2 = true ↔ canRotate oAtCenter = true) :=
  ⟨by decide, (claim_C6_amended oAtCenter (by decide)).1,
    (claim_C6_amended oAtCenter (by decide)).2⟩

/-! ### C8 — the Terminate action -/

/-- Counterexample to C8 as stated: Terminate issued while NOT paused leaves
the externally visible status flag at 0 — the code only forces flag 2 when
the flag was 1 — so Terminate does not always force terminal status. -/
theorem claim_C8_cex :
    (userInput .Terminate false runningScored).param.game_info.pause = 0 ∧
    (userInput .Terminate false runningScored).param.game_info.pause ≠ 2 := by
  constructor <;> decide

/-- Claim C8 (corrected): Terminate always moves the state machine to
`GameOver`; it persists the score iff the score exceeds both the in-memory
high score and the stored file value; and it sets the status flag to 2 only
when the flag was 1 (paused) — otherwise the flag is left as it was.  In
particular, Terminate issued while paused with a score above both high
scores updates the persisted value and sets the flag to 2. -/
theorem claim_C8_amended (g : GState) :
    (userInput .Terminate false g).state = .GameOver
  ∧ (userInput .Terminate false g).param.game_info.pause =
      (if g.param.game_info.pause = 1 then 2 else g.param.game_info.pause)
  ∧ (userInput .Terminate false g).stored =
      (if g.param.game_info.score > g.param.game_info.high_score then
        addHighScore g.stored g.param.game_info.score else g.stored)
  ∧ (g.param.game_info.pause = 1 ∧ g.stored < g.param.game_info.score ∧
      g.param.game_info.high_score < g.param.game_info.score →
      (userInput .Terminate false g).param.game_info.pause = 2 ∧
      (userInput .Terminate false g).stored = g.param.game_info.score) := by
  refine ⟨rfl, ?_, ?_, ?_⟩
  · by_cases hp : g.param.game_info.pause = 1 <;> simp [userInput, hp]
  · by_cases hs : g.param.game_info.high_score < g.param.game_info.score <;>
      simp [userInput, gt_iff_lt, hs]
  · rintro ⟨h1, h2, h3⟩
    refine ⟨by simp [userInput, h1], ?_⟩
    have h4 : ¬ g.param.game_info.score ≤ g.stored := by omega
    simp [userInput, addHighScore, gt_iff_lt, h3, h4, h1]

/-- Witness for C8 (amended): Terminate while paused with score 50 over
stored/in-memory high score 10 persists 50 and sets the flag to 2. -/
theorem claim_C8_witness :
    (pausedScored.param.game_info.pause = 1 ∧ pausedScored.stored < pausedScored.param.game_info.score ∧
      pausedScored.param.game_info.high_score < pausedScored.param.game_info.score)
  ∧ ((userInput .Terminate false pausedScored).param.game_info.pause = 2 ∧
      (userInput .Terminate false pausedScored).stored = pausedScored.param.game_info.score) :=
  ⟨by decide, (claim_C8_amended pausedScored).2.2.2 (by decide)⟩

/-! ### C9 — frozen ticks -/

/-- Counterexample to C9 as stated: paused, the next tick's snapshot is NOT
the previously built view — the code returns the internal `GameInfo` record,
whose field is the authoritative field without the current-piece overlay,
while the previously built view had the I piece overlaid. -/
theorem claim_C9_cex :
    pausedAfterSpawn.param.game_info.pause = 1 ∧
    (updateCurrentState pausedAfterSpawn 100 2).2 ≠ (updateCurrentState startedGame 0 1).2 := by
  constructor <;> decide

/-- Claim C9 (corrected): whenever the game is paused (flag 1) or has not
been started, a tick performs no state-machine transition and mutates no
state at all, and the snapshot it returns is the internal `GameInfo` record
(the authoritative field with no piece overlay) — which need not coincide
with the previously built view. -/
theorem claim_C9_amended (g : GState) (now : Int) (ridx : ℕ)
    (h : g.param.game_info.pause = 1 ∨ g.param.start = false) :
    (updateCurrentState g now ridx).1 = g ∧
    (updateCurrentState g now ridx).2 = g.param.game_info := by
  rw [updateCurrentState, if_pos h]
  exact ⟨rfl, rfl⟩

/-- Witness for C9 (amended): the paused session above freezes entirely. -/
theorem claim_C9_witness :
    (pausedAfterSpawn.param.game_info.pause = 1 ∨ pausedAfterSpawn.param.start = false)
  ∧ ((updateCurrentState pausedAfterSpawn 100 2).1 = pausedAfterSpawn ∧
      (updateCurrentState pausedAfterSpawn 100 2).2 = pausedAfterSpawn.param.game_info) :=
  ⟨Or.inl (by decide), claim_C9_amended pausedAfterSpawn 100 2 (Or.inl (by decide))⟩

/-! ### C10 — hold performs a hard drop for every action -/

@[simp] theorem setPosY_posY (p : Params) (y : Int) :
    (setPosY p y).currentPiece.posY = y := rfl

@[simp] theorem setPosY_shape (p : Params) (y : Int) :
    (setPosY p y).currentPiece.shape = p.currentPiece.shape := rfl

@[simp] theorem setPosY_setPosY (p : Params) (a b : Int) :
    setPosY (setPosY p a) b = setPosY p b := rfl

@[simp] theorem setPosY_self (p : Params) : setPosY p p.currentPiece.posY = p := rfl

/-- A piece with an occupied template cell is blocked once `posY ≥ 19`. -/
theorem moveFigureDown_fail_of_high (p : Params) (i j : Fin 4)
    (hocc : p.currentPiece.shape i j ≠ 0) (hy : 19 ≤ p.currentPiece.posY) :
    (moveFigureDown p).2 = false := by
  simp only [moveFigureDown]
  split
  · rename_i h
    rw [decide_eq_true_eq] at h
    exact absurd ((h i j hocc).1) (by
      have : (0 : Int) ≤ (i.val : Int) := Int.natCast_nonneg _
      omega)
  · rfl

/-- One `moveFigureDown` step either commits `posY + 1` or changes nothing. -/
theorem moveFigureDown_cases (p : Params) :
    moveFigureDown p = (setPosY p (p.currentPiece.posY + 1), true) ∨
    moveFigureDown p = (p, false) := by
  simp only [moveFigureDown, setPosY]
  split
  · exact Or.inl rfl
  · exact Or.inr rfl

/-- The hard-drop loop descends one row at a time until `moveFigureDown`
fails, and changes nothing but `posY`. -/
theorem dropLoop_spec (fuel : ℕ) (p : Params)
    (hocc : ∃ i j : Fin 4, p.currentPiece.shape i j ≠ 0)
    (hfuel : (20 : Int) - p.currentPiece.posY ≤ (fuel : Int)) :
    ∃ n : ℕ,
      dropLoop fuel p = setPosY p (p.currentPiece.posY + (n : Int))
      ∧ (∀ k : ℕ, k < n →
          (moveFigureDown (setPosY p (p.currentPiece.posY + (k : Int)))).2 = true)
      ∧ (moveFigureDown (setPosY p (p.currentPiece.posY + (n : Int)))).2 = false := by
  induction fuel generalizing p with
  | zero =>
    obtain ⟨i, j, hij⟩ := hocc
    refine ⟨0, ?_, fun k hk => absurd hk (by omega), ?_⟩
    · simp only [dropLoop, Nat.cast_zero, add_zero, setPosY_self]
    · rw [show p.currentPiece.posY + ((0 : ℕ) : Int) = p.currentPiece.posY by
        simp, setPosY_self]
      refine moveFigureDown_fail_of_high p i j hij ?_
      simp only [Nat.cast_zero] at hfuel
      omega
  | succ fuel ih =>
    rcases moveFigureDown_cases p with hmv | hmv
    · have hstep : dropLoop (fuel + 1) p = dropLoop fuel (setPosY p (p.currentPiece.posY + 1)) := by
        simp only [dropLoop, hmv, if_true]
      have hocc2 : ∃ i j : Fin 4,
          (setPosY p (p.currentPiece.posY + 1)).currentPiece.shape i j ≠ 0 := hocc
      have hfuel2 : (20 : Int) - (setPosY p (p.currentPiece.posY + 1)).currentPiece.posY
          ≤ (fuel : Int) := by
        rw [setPosY_posY]
        push_cast at hfuel ⊢
        omega
      obtain ⟨n, h1, h2, h3⟩ := ih (setPosY p (p.currentPiece.posY + 1)) hocc2 hfuel2
      rw [setPosY_posY, setPosY_setPosY] at h1 h3
      refine ⟨n + 1, ?_, ?_, ?_⟩
      · rw [hstep, h1]
        have : p.currentPiece.posY + 1 + (n : Int) =
            p.currentPiece.posY + ((n + 1 : ℕ) : Int) := by push_cast; ring
        rw [this]
      · intro k hk
        match k with
        | 0 =>
          rw [show p.currentPiece.posY + ((0 : ℕ) : Int) = p.currentPiece.posY by simp,
            setPosY_self, hmv]
        | k + 1 =>
          have hks := h2 k (by omega)
          rw [setPosY_posY, setPosY_setPosY] at hks
          have : p.currentPiece.posY + 1 + (k : Int) =
              p.currentPiece.posY + ((k + 1 : ℕ) : Int) := by push_cast; ring
          rw [this] at hks
          exact hks
      · have : p.currentPiece.posY + 1 + (n : Int) =
            p.currentPiece.posY + ((n + 1 : ℕ) : Int) := by push_cast; ring
        rw [this] at h3
        exact h3
    · refine ⟨0, ?_, fun k hk => absurd hk (by omega), ?_⟩
      · rw [show p.currentPiece.posY + ((0 : ℕ) : Int) = p.currentPiece.posY by simp,
          setPosY_self]
        simp only [dropLoop, hmv, Bool.false_eq_true, if_false]
      · rw [show p.currentPiece.posY + ((0 : ℕ) : Int) = p.currentPiece.posY by simp,
          setPosY_self, hmv]

/-- Claim C10 (confirmed): for EVERY action `a`, `userInput a hold=true` in
the `Moving` state with the game unpaused performs exactly a hard drop —
the current piece descends one row at a time until blocked, everything else
is untouched, and the action's own effect never happens.  (The lower bound
on `posY` holds for any piece on the board and rules out the unbounded
descent the C `while` loop would attempt on a piece with no occupied cell.) -/
theorem claim_C10_hard_drop (a : UserAction) (g : GState)
    (hm : g.state = .Moving) (hp : g.param.game_info.pause = 0)
    (hocc : ∃ i j : Fin 4, g.param.currentPiece.shape i j ≠ 0)
    (hY : -1 ≤ g.param.currentPiece.posY) :
    ∃ n : ℕ,
      userInput a true g =
        { g with param := setPosY g.param (g.param.currentPiece.posY + (n : Int)) }
      ∧ (∀ k : ℕ, k < n →
          (moveFigureDown (setPosY g.param (g.param.currentPiece.posY + (k : Int)))).2 = true)
      ∧ (moveFigureDown (setPosY g.param (g.param.currentPiece.posY + (n : Int)))).2 = false := by
  have hui : userInput a true g = { g with param := dropLoop 25 g.param } := by
    simp [userInput, hm, hp]
  obtain ⟨n, h1, h2, h3⟩ := dropLoop_spec 25 g.param hocc (by push_cast; omega)
  exact ⟨n, by rw [hui, h1], h2, h3⟩

/-- Witness for C10: holding any key (here Left) in `movingT` hard-drops the
T piece. -/
theorem claim_C10_witness :
    (movingT.state = .Moving ∧ movingT.param.game_info.pause = 0
      ∧ (∃ i j : Fin 4, movingT.param.currentPiece.shape i j ≠ 0)
      ∧ -1 ≤ movingT.param.currentPiece.posY)
  ∧ (∃ n : ℕ,
      userInput .Left true movingT =
        { movingT with param := setPosY movingT.param (movingT.param.currentPiece.posY + (n : Int)) }
      ∧ (∀ k : ℕ, k < n →
          (moveFigureDown (setPosY movingT.param (movingT.param.currentPiece.posY + (k : Int)))).2 = true)
      ∧ (moveFigureDown (setPosY movingT.param (movingT.param.currentPiece.posY + (n : Int)))).2
          = false) :=
  ⟨⟨rfl, rfl, by decide, by decide⟩,
    claim_C10_hard_drop .Left movingT rfl rfl (by decide) (by decide)⟩

/-! ### C7 — four rotations are the identity -/

/-- Four clockwise quarter turns of a 4×4 template are the identity. -/
theorem rotateShape_four (s : Shape) :
    rotateShape (rotateShape (rotateShape (rotateShape s))) = s := by
  funext a b
  fin_cases a <;> fin_cases b <;> rfl

/-- `adjustPositionForLine` only translates the piece by the nudge. -/
theorem adjustPositionForLine_eq (p : Params) :
    adjustPositionForLine p = { p with currentPiece := { p.currentPiece with
      posX := p.currentPiece.posX + nudgeX p.currentPiece.type p.currentPiece.rotation,
      posY := p.currentPiece.posY + nudgeY p.currentPiece.type p.currentPiece.rotation } } := by
  simp only [adjustPositionForLine, nudgeX, nudgeY]
  by_cases ht : p.currentPiece.type = 0 <;>
    by_cases hr : p.currentPiece.rotation % 2 = 0 <;>
    simp [ht, hr] <;> omega

/-- Over four consecutive rotation counters the horizontal nudges cancel. -/
theorem nudgeX_four (t r : ℕ) :
    nudgeX t r + nudgeX t ((r + 1) % 4) + nudgeX t (((r + 1) % 4 + 1) % 4)
      + nudgeX t ((((r + 1) % 4 + 1) % 4 + 1) % 4) = 0 := by
  simp only [nudgeX]
  by_cases ht : t = 0
  · simp only [if_pos ht]
    by_cases hr : r % 2 = 0
    · rw [if_pos hr, if_neg (by omega), if_pos (by omega), if_neg (by omega)]
      ring
    · rw [if_neg hr, if_pos (by omega), if_neg (by omega), if_pos (by omega)]
      ring
  · simp [ht]

/-- Over four consecutive rotation counters the vertical nudges cancel. -/
theorem nudgeY_four (t r : ℕ) :
    nudgeY t r + nudgeY t ((r + 1) % 4) + nudgeY t (((r + 1) % 4 + 1) % 4)
      + nudgeY t ((((r + 1) % 4 + 1) % 4 + 1) % 4) = 0 := by
  simp only [nudgeY]
  by_cases ht : t = 0
  · simp only [if_pos ht]
    by_cases hr : r % 2 = 0
    · rw [if_pos hr, if_neg (by omega), if_pos (by omega), if_neg (by omega)]
      ring
    · rw [if_neg hr, if_pos (by omega), if_neg (by omega), if_pos (by omega)]
      ring
  · simp [ht]

/-- A rotation request on the O piece never changes the parameters. -/
theorem rotatePiece_type1 (p : Params) (ht : p.currentPiece.type = 1) :
    (rotatePiece p).1 = p := by
  by_cases hcr : canRotate p = false <;> simp [rotatePiece, hcr, ht]

/-- A successful rotation of a non-O piece: the shape takes a quarter turn,
the position moves by the bounding-box re-anchor offset plus the I nudge,
the type survives and the rotation counter steps mod 4. -/
theorem rotatePiece_success_eq (p : Params) (ht : p.currentPiece.type ≠ 1)
    (hs : (rotatePiece p).2 = true) :
    (rotatePiece p).1.currentPiece.shape = rotateShape p.currentPiece.shape
  ∧ (rotatePiece p).1.currentPiece.posX = p.currentPiece.posX
      + ((findMinXY p.currentPiece.shape).1 - (findMinXY (rotateShape p.currentPiece.shape)).1)
      + nudgeX p.currentPiece.type p.currentPiece.rotation
  ∧ (rotatePiece p).1.currentPiece.posY = p.currentPiece.posY
      + ((findMinXY p.currentPiece.shape).2 - (findMinXY (rotateShape p.currentPiece.shape)).2)
      + nudgeY p.currentPiece.type p.currentPiece.rotation
  ∧ (rotatePiece p).1.currentPiece.type = p.currentPiece.type
  ∧ (rotatePiece p).1.currentPiece.rotation = (p.currentPiece.rotation + 1) % 4 := by
  by_cases hcr : canRotate p = false
  · rw [rotatePiece, if_pos hcr] at hs
    simp at hs
  · simp only [rotatePiece, if_neg hcr, if_neg ht] at hs ⊢
    rw [adjustPositionForLine_eq] at hs ⊢
    simp only [] at hs ⊢
    split at hs
    · rename_i hcp
      rw [if_pos hcp]
      exact ⟨rfl, rfl, rfl, rfl, rfl⟩
    · simp at hs

/-- Claim C7 (confirmed): whenever four consecutive `rotatePiece` calls all
succeed, the piece's template returns to the original and the net position
delta is (0,0) — the bounding-box offsets telescope and the four I-piece
nudges cancel pairwise. -/
theorem claim_C7_four_rotations (p : Params)
    (h1 : (rotatePiece p).2 = true)
    (h2 : (rotatePiece (rotatePiece p).1).2 = true)
    (h3 : (rotatePiece (rotatePiece (rotatePiece p).1).1).2 = true)
    (h4 : (rotatePiece (rotatePiece (rotatePiece (rotatePiece p).1).1).1).2 = true) :
    (rotatePiece (rotatePiece (rotatePiece (rotatePiece p).1).1).1).1.currentPiece.shape
      = p.currentPiece.shape
  ∧ (rotatePiece (rotatePiece (rotatePiece (rotatePiece p).1).1).1).1.currentPiece.posX
      = p.currentPiece.posX
  ∧ (rotatePiece (rotatePiece (rotatePiece (rotatePiece p).1).1).1).1.currentPiece.posY
      = p.currentPiece.posY := by
  by_cases ht : p.currentPiece.type = 1
  · simp only [rotatePiece_type1 p ht]
    exact ⟨trivial, trivial, trivial⟩
  · obtain ⟨e1s, e1x, e1y, e1t, e1r⟩ := rotatePiece_success_eq p ht h1
    have ht1 : (rotatePiece p).1.currentPiece.type ≠ 1 := by rw [e1t]; exact ht
    obtain ⟨e2s, e2x, e2y, e2t, e2r⟩ := rotatePiece_success_eq _ ht1 h2
    have ht2 : (rotatePiece (rotatePiece p).1).1.currentPiece.type ≠ 1 := by
      rw [e2t]; exact ht1
    obtain ⟨e3s, e3x, e3y, e3t, e3r⟩ := rotatePiece_success_eq _ ht2 h3
    have ht3 : (rotatePiece (rotatePiece (rotatePiece p).1).1).1.currentPiece.type ≠ 1 := by
      rw [e3t]; exact ht2
    obtain ⟨e4s, e4x, e4y, e4t, e4r⟩ := rotatePiece_success_eq _ ht3 h4
    refine ⟨?_, ?_, ?_⟩
    · rw [e4s, e3s, e2s, e1s, rotateShape_four]
    · rw [e4x, e3x, e2x, e1x, e3s, e2s, e1s, e3t, e2t, e1t, e3r, e2r, e1r,
        rotateShape_four]
      have hn := nudgeX_four p.currentPiece.type p.currentPiece.rotation
      omega
    · rw [e4y, e3y, e2y, e1y, e3s, e2s, e1s, e3t, e2t, e1t, e3r, e2r, e1r,
        rotateShape_four]
      have hn := nudgeY_four p.currentPiece.type p.currentPiece.rotation
      omega

/-- Witness for C7: the T piece in the middle of an empty field rotates
four times successfully and returns to its template and position. -/
theorem claim_C7_witness :
    ((rotatePiece tAtCenter).2 = true
      ∧ (rotatePiece (rotatePiece tAtCenter).1).2 = true
      ∧ (rotatePiece (rotatePiece (rotatePiece tAtCenter).1).1).2 = true
      ∧ (rotatePiece (rotatePiece (rotatePiece (rotatePiece tAtCenter).1).1).1).2 = true)
  ∧ ((rotatePiece (rotatePiece (rotatePiece (rotatePiece tAtCenter).1).1).1).1.currentPiece.shape
      = tAtCenter.currentPiece.shape
    ∧ (rotatePiece (rotatePiece (rotatePiece (rotatePiece tAtCenter).1).1).1).1.currentPiece.posX
      = tAtCenter.currentPiece.posX
    ∧ (rotatePiece (rotatePiece (rotatePiece (rotatePiece tAtCenter).1).1).1).1.currentPiece.posY
      = tAtCenter.currentPiece.posY) :=
  ⟨⟨by decide, by decide, by decide, by decide⟩,
    claim_C7_four_rotations tAtCenter (by decide) (by decide) (by decide) (by decide)⟩

/-! ### C1 — the collision/bounds invariant -/

/-- `canPlacePiece` read back as the collision/bounds invariant: every
occupied cell of the current piece lies in `[0,10)×[0,20)` on an empty
field cell. -/
theorem canPlacePiece_iff (p : Params) :
    canPlacePiece p = true ↔ ∀ i j : Fin 4, p.currentPiece.shape i j ≠ 0 →
      0 ≤ p.currentPiece.posX + (j.val : Int) ∧ p.currentPiece.posX + (j.val : Int) < 10 ∧
      0 ≤ p.currentPiece.posY + (i.val : Int) ∧ p.currentPiece.posY + (i.val : Int) < 20 ∧
      getCell p.game_info.field (p.currentPiece.posY + (i.val : Int))
        (p.currentPiece.posX + (j.val : Int)) = 0 := by
  simp only [canPlacePiece, decide_eq_true_eq]

/-- Claim C1, amended (corrected): the collision/bounds invariant holds
after every `moveFigureLeft`, `moveFigureRight`, `moveFigureDown` and
`rotatePiece` call (failed calls change nothing), and after every
SUCCESSFUL spawn — but not at every reachable state (see the
counterexample: after `fixFigure` the still-current piece coincides with
its own freshly fixed cells). -/
theorem claim_C1_amended (p : Params) (ridx : ℕ) (h : canPlacePiece p = true) :
    canPlacePiece (moveFigureLeft p).1 = true
  ∧ canPlacePiece (moveFigureRight p).1 = true
  ∧ canPlacePiece (moveFigureDown p).1 = true
  ∧ canPlacePiece (rotatePiece p).1 = true
  ∧ ((spawnNewPiece p ridx false).2 = true →
      canPlacePiece (spawnNewPiece p ridx false).1 = true) := by
  refine ⟨?_, ?_, ?_, ?_, ?_⟩
  · simp only [moveFigureLeft]
    split
    · rename_i hc
      rw [decide_eq_true_eq] at hc
      rw [canPlacePiece_iff] at h ⊢
      simp only []
      intro i j hij
      obtain ⟨hx0, hx1, hy0, hy1, _⟩ := h i j hij
      obtain ⟨hcx, hcell⟩ := hc i j hij
      exact ⟨hcx, by omega, hy0, hy1, hcell⟩
    · exact h
  · simp only [moveFigureRight]
    split
    · rename_i hc
      rw [decide_eq_true_eq] at hc
      rw [canPlacePiece_iff] at h ⊢
      simp only []
      intro i j hij
      obtain ⟨hx0, hx1, hy0, hy1, _⟩ := h i j hij
      obtain ⟨hcx, hcell⟩ := hc i j hij
      exact ⟨by omega, hcx, hy0, hy1, hcell⟩
    · exact h
  · simp only [moveFigureDown]
    split
    · rename_i hc
      rw [decide_eq_true_eq] at hc
      rw [canPlacePiece_iff] at h ⊢
      simp only []
      intro i j hij
      obtain ⟨hx0, hx1, hy0, hy1, _⟩ := h i j hij
      obtain ⟨hcy, hcell⟩ := hc i j hij
      exact ⟨hx0, hx1, by omega, hcy, hcell⟩
    · exact h
  · by_cases hcr : canRotate p = false
    · rw [rotatePiece, if_pos hcr]
      exact h
    · by_cases ht : p.currentPiece.type = 1
      · rw [rotatePiece, if_neg hcr, if_pos ht]
        exact h
      · simp only [rotatePiece, if_neg hcr, if_neg ht]
        split
        · rename_i hcp
          exact hcp
        · exact h
  · intro hsp
    simp only [spawnNewPiece, Bool.false_eq_true, if_false] at hsp ⊢
    split
    · rename_i hcp
      exact hcp
    · rename_i hcp
      rw [if_neg hcp] at hsp
      simp at hsp

/-- Witness for C1 (amended) at the T piece centered on an empty field. -/
theorem claim_C1_witness :
    canPlacePiece tAtCenter = true
  ∧ (canPlacePiece (moveFigureLeft tAtCenter).1 = true
    ∧ canPlacePiece (moveFigureRight tAtCenter).1 = true
    ∧ canPlacePiece (moveFigureDown tAtCenter).1 = true
    ∧ canPlacePiece (rotatePiece tAtCenter).1 = true
    ∧ ((spawnNewPiece tAtCenter 4 false).2 = true →
        canPlacePiece (spawnNewPiece tAtCenter 4 false).1 = true)) :=
  ⟨by decide, claim_C1_amended tAtCenter 4 (by decide)⟩

/-- Counterexample to C1 as stated: `cexTrace6` is reachable through
`initGame` / `userInput` / `updateCurrentState` calls, yet the current
piece violates the collision invariant there — after the attaching tick the
current piece still sits exactly on the four field cells `fixFigure` just
made non-zero. -/
theorem claim_C1_cex :
    Reachable cexTrace6 ∧ canPlacePiece cexTrace6.param = false :=
  ⟨Reachable.tick 2200 0 (Reachable.tick 2100 0 (Reachable.tick 2000 0
    (Reachable.input .Down true (Reachable.tick 0 2
      (Reachable.input .Start false (Reachable.init 0 1)))))),
   by decide⟩

/-! ### C2 — line clearing and scoring -/

theorem getD_set_self (l : Field) (n : ℕ) (a : List Int) (h : n < l.length) :
    (l.set n a).getD n [] = a := by
  simp [List.getD_eq_getElem?_getD, List.getElem?_set_self, h]

theorem getD_set_ne (l : Field) (n m : ℕ) (a : List Int) (h : n ≠ m) :
    (l.set n a).getD m [] = l.getD m [] := by
  simp [List.getD_eq_getElem?_getD, List.getElem?_set_ne, h]

theorem shiftRowsDown_length (f : Field) (r : ℕ) :
    (shiftRowsDown f r).length = f.length := by
  induction r generalizing f with
  | zero => rfl
  | succ r ih => simp [shiftRowsDown, ih]

theorem copyStr_length (f : Field) (y : ℕ) : (copyStr f y).length = f.length := by
  simp [copyStr, shiftRowsDown_length]

theorem cleanStr_length (f : Field) (y : ℕ) : (cleanStr f y).length = f.length := by
  simp [cleanStr]

/-- The `copyStr` loop reads each source row before overwriting it, so it
acts as a parallel downward shift of rows `0..r-1` into `1..r`. -/
theorem shiftRowsDown_getD (f : Field) (r : ℕ) (hr : r < f.length) (i : ℕ) :
    (shiftRowsDown f r).getD i [] =
      if 1 ≤ i ∧ i ≤ r then f.getD (i - 1) [] else f.getD i [] := by
  induction r generalizing f with
  | zero =>
    rw [if_neg (by omega)]
    rfl
  | succ r ih =>
    have hlen : r < (f.set (r + 1) (f.getD r [])).length := by
      rw [List.length_set]; omega
    rw [shiftRowsDown, ih _ hlen]
    by_cases h1 : 1 ≤ i ∧ i ≤ r
    · rw [if_pos h1, if_pos (by omega), getD_set_ne _ _ _ _ (by omega)]
    · rw [if_neg h1]
      by_cases h2 : i = r + 1
      · subst h2
        rw [if_pos (by omega), getD_set_self _ _ _ hr]
        congr 1
      · rw [if_neg (by omega), getD_set_ne _ _ _ _ (by omega)]

theorem rowFull_replicate : rowFull (List.replicate 10 0) = false := by decide

/-- The combined clean-then-shift clearing of full row `y`: row 0 becomes
empty and rows `1..y` take the previous contents of rows `0..y-1`. -/
theorem cleared_getD (f : Field) (y : ℕ) (hy : y < f.length) :
    (copyStr (cleanStr f y) y).getD 0 [] = List.replicate 10 0
    ∧ ∀ i, 1 ≤ i → i ≤ y → (copyStr (cleanStr f y) y).getD i [] = f.getD (i - 1) [] := by
  constructor
  · rw [copyStr, getD_set_self]
    rw [shiftRowsDown_length, cleanStr_length]
    omega
  · intro i h1 h2
    rw [copyStr, getD_set_ne _ _ _ _ (by omega)]
    rw [shiftRowsDown_getD _ _ (by rw [cleanStr_length]; omega), if_pos (by omega)]
    rw [cleanStr, getD_set_ne _ _ _ _ (by omega)]

theorem countFullUpTo_le (f : Field) (y : ℕ) : countFullUpTo f y ≤ y + 1 := by
  induction y with
  | zero => simp [countFullUpTo]; split <;> omega
  | succ y ih => rw [countFullUpTo]; split <;> omega

/-- Shifting all rows down one with an empty new top row drops exactly the
row that left the window. -/
theorem countFullUpTo_shift (f g : Field) (y : ℕ)
    (h0 : rowFull (g.getD 0 []) = false)
    (hs : ∀ i, 1 ≤ i → i ≤ y + 1 → g.getD i [] = f.getD (i - 1) []) :
    countFullUpTo g (y + 1) = countFullUpTo f y := by
  induction y with
  | zero =>
    rw [countFullUpTo, countFullUpTo, countFullUpTo, h0, hs 1 (by omega) (by omega)]
    simp
  | succ y ih =>
    rw [countFullUpTo, ih (fun i hi1 hi2 => hs i hi1 (by omega)),
      hs (y + 2) (by omega) (by omega), countFullUpTo]
    norm_num

theorem countFullUpTo_pos (f : Field) (y : ℕ) (h : rowFull (f.getD y []) = true) :
    1 ≤ countFullUpTo f y := by
  cases y with
  | zero => rw [countFullUpTo, if_pos h]
  | succ y => rw [countFullUpTo, if_pos h]; omega

/-- Clearing a full row `y` decreases the up-to-`y` full-row count by one. -/
theorem countFullUpTo_cleared (f : Field) (y : ℕ) (hy : y < f.length)
    (hfull : rowFull (f.getD y []) = true) :
    countFullUpTo (copyStr (cleanStr f y) y) y = countFullUpTo f y - 1 := by
  obtain ⟨h0, hs⟩ := cleared_getD f y hy
  cases y with
  | zero =>
    rw [countFullUpTo, h0, rowFull_replicate, countFullUpTo, if_pos hfull]
    simp
  | succ y =>
    rw [countFullUpTo_shift f _ y (by rw [h0, rowFull_replicate]) hs]
    rw [countFullUpTo, if_pos hfull]
    omega

/-- The scan returns exactly the number of full rows among `0..y`, given
enough fuel (each iteration either descends or removes one full row). -/
theorem lineScan_count (fuel : ℕ) : ∀ (f : Field) (y : ℕ), y < f.length →
    y + 1 + countFullUpTo f y ≤ fuel →
    (lineScan fuel f y).2 = countFullUpTo f y := by
  induction fuel with
  | zero => intro f y hy hfuel; omega
  | succ fuel ih =>
    intro f y hy hfuel
    rw [lineScan]
    split
    · rename_i hfull
      simp only []
      have hlen : y < (copyStr (cleanStr f y) y).length := by
        rw [copyStr_length, cleanStr_length]; omega
      have hpos := countFullUpTo_pos f y hfull
      rw [ih _ y hlen (by rw [countFullUpTo_cleared f y hy hfull]; omega),
        countFullUpTo_cleared f y hy hfull]
      omega
    · rename_i hfull
      rw [Bool.not_eq_true] at hfull
      split
      · rename_i hy0
        subst hy0
        rw [countFullUpTo, hfull]
        rfl
      · rename_i hy0
        have heq : countFullUpTo f (y - 1) = countFullUpTo f y := by
          cases y with
          | zero => omega
          | succ y2 => rw [countFullUpTo, hfull]; rfl
        rw [ih f (y - 1) (by omega) (by omega), heq]

/-- Claim C2 (confirmed): on a 20-row field holding `k ≤ 4` full rows, the
line-clear/scoring pass adds exactly `scoreDelta k` — 0/100/300/700/1500 —
to the score. -/
theorem claim_C2_scoring (p : Params) (hlen : p.game_info.field.length = 20)
    (hk : countFullUpTo p.game_info.field 19 ≤ 4) :
    (updateCurrentGameInfo p).game_info.score =
      p.game_info.score + scoreDelta (countFullUpTo p.game_info.field 19) := by
  have hcount := lineScan_count 40 p.game_info.field 19 (by omega)
    (by have := countFullUpTo_le p.game_info.field 19; omega)
  simp only [updateCurrentGameInfo]
  split
  · rename_i hne
    try simp only []
    rw [updateInfo_score]
    try simp only []
    rw [hcount] at hne
    rw [hcount]
    have hc : countFullUpTo p.game_info.field 19 = 1 ∨ countFullUpTo p.game_info.field 19 = 2
        ∨ countFullUpTo p.game_info.field 19 = 3 ∨ countFullUpTo p.game_info.field 19 = 4 := by
      omega
    rcases hc with h | h | h | h <;> rw [h] <;> rfl
  · rename_i hne
    rw [ne_eq, not_not, hcount] at hne
    try simp only []
    rw [hne]
    rfl

/-- Witness for C2: clearing the two full bottom rows adds exactly 300. -/
theorem claim_C2_witness :
    (twoFullRowsParams.game_info.field.length = 20
      ∧ countFullUpTo twoFullRowsParams.game_info.field 19 = 2)
  ∧ (updateCurrentGameInfo twoFullRowsParams).game_info.score =
      twoFullRowsParams.game_info.score +
        scoreDelta (countFullUpTo twoFullRowsParams.game_info.field 19) :=
  ⟨⟨by decide, by decide⟩, claim_C2_scoring twoFullRowsParams (by decide) (by decide)⟩

end Tetris
